import Mathlib

/-!
Verification of the gitlab-pages object-storage content server and the
ranged-reader design against its specification.

The first part embeds the objectstorage package (src/unnamed/part_004,
package objectstorage): the per-project zip cache, tryZipFile, serveFile,
writeContent and ServeFileHTTP.  External collaborators (the object-store
provider, the zip package, the clock) are supplied as an explicit
environment of functions, and the mutable cache map and the HTTP response
writer are threaded as explicit state.
-/

namespace ObjectStorage

/-- An object returned by the provider, mirroring the Object interface of
the objectstorage package: Name, Size, ModTime, ContentType, and the bytes
obtainable from Reader. -/
structure Object where
  name : String
  size : Nat
  modTime : Nat
  contentType : String
  content : String
  deriving Repr, DecidableEq

/-- Outcome of provider.GetObject: the object, the sentinel ErrKeyNotFound,
or any other error (carrying its message). -/
inductive GetObjectResult where
  | found (obj : Object)
  | keyNotFound
  | failure (msg : String)
  deriving Repr, DecidableEq

/-- Metadata of an entry opened inside a zip archive (os.FileInfo as used
by tryZipFile: Name and ModTime). -/
structure ZipFileStat where
  name : String
  modTime : Nat
  deriving Repr, DecidableEq

/-- An opened zip entry: the bytes its reader yields. -/
structure ZipFile where
  content : String
  deriving Repr, DecidableEq

/-- The external collaborators of the Client, as pure oracles:
provider.GetObject, obj.ReaderAt, zip.New, zip Reader.Open (readers and
ReaderAt handles are identified by opaque numeric ids) and the clock used
by writeContent for the Expires header. -/
structure Env where
  getObject : String → GetObjectResult
  readerAt : Object → Except String Nat
  zipNew : Nat → Nat → Except String Nat
  zipOpen : Nat → String → Except String (ZipFile × ZipFileStat)
  now : Nat

/-- The Client's cachedReaders map, projectID to a possibly-nil zip reader:
some none models a stored nil pointer (negative cache), some (some r) a
built reader with id r, and a missing key an unprobed project. -/
def CacheMap := List (Nat × Option Nat)

/-- Map read: cachedReaders lookup under the mutex. -/
def lookupReader (st : CacheMap) (k : Nat) : Option (Option Nat) :=
  List.lookup k st

/-- Map write: cachedReaders assignment (the newest binding shadows any
older one, matching map assignment for lookup purposes). -/
def insertReader (st : CacheMap) (k : Nat) (v : Option Nat) : CacheMap :=
  (k, v) :: st

/-- The per-request lookup data handed to the client by the serving layer:
LookupPath.ProjectID, LookupPath.Path, LookupPath.HasAccessControl. -/
structure LookupPath where
  projectID : Nat
  path : String
  hasAccessControl : Bool
  deriving Repr, DecidableEq

/-- serving.Handler as used by the client: the lookup path and the
sub-path of the request below it. -/
structure Handler where
  lookupPath : LookupPath
  subPath : String
  deriving Repr, DecidableEq

/-- The observable effects on the http.ResponseWriter: the four headers the
code sets, and the body written by io.Copy. -/
structure ResponseWriter where
  cacheControl : Option String
  expires : Option String
  contentType : Option String
  lastModified : Option String
  body : String
  deriving Repr, DecidableEq

/-- A fresh response writer: no headers set, empty body. -/
def ResponseWriter.empty : ResponseWriter :=
  { cacheControl := none, expires := none, contentType := none,
    lastModified := none, body := "" }

/-- strings.Contains(s, sub): sub occurs as a substring of s. -/
def strContains (s sub : String) : Bool :=
  decide (sub.toList <:+: s.toList)

/-- endsWithSlash from the source: strings.HasSuffix(path, "/"), i.e. the
last character is a slash. -/
def endsWithSlash (path : String) : Bool :=
  path.toList.getLast? == some '/'

/-- strings.TrimSuffix(path, "/"): drop one trailing slash if present. -/
def trimSlashSuffix (path : String) : String :=
  if endsWithSlash path then String.mk path.toList.dropLast else path

/-- filepath.Ext: the suffix of the final path element beginning at its
last dot, empty when the final element has no dot. -/
def fileExt (name : String) : String :=
  let r := name.toList.reverse.takeWhile (fun c => c != '/')
  if r.contains '.' then String.mk ('.' :: (r.takeWhile (fun c => c != '.')).reverse)
  else ""

/-- The builtin extension-to-type table of the Go mime package (lowercase
keys), which mime.TypeByExtension consults. -/
def builtinMimeTypes : List (String × String) :=
  [(".css", "text/css; charset=utf-8"),
   (".gif", "image/gif"),
   (".htm", "text/html; charset=utf-8"),
   (".html", "text/html; charset=utf-8"),
   (".jpeg", "image/jpeg"),
   (".jpg", "image/jpeg"),
   (".js", "application/javascript"),
   (".json", "application/json"),
   (".mjs", "application/javascript"),
   (".pdf", "application/pdf"),
   (".png", "image/png"),
   (".svg", "image/svg+xml"),
   (".wasm", "application/wasm"),
   (".webp", "image/webp"),
   (".xml", "text/xml; charset=utf-8")]

/-- Lowercasing of an extension, character by character, as the mime
package does before consulting its table. -/
def lowerExt (ext : String) : String :=
  String.mk (ext.toList.map Char.toLower)

/-- mime.TypeByExtension: case-insensitive lookup of the extension in the
builtin table; the empty string when the extension is unknown. -/
def mimeTypeByExtension (ext : String) : String :=
  match List.lookup (lowerExt ext) builtinMimeTypes with
  | some t => t
  | none => ""

/-- writeContent from the source: nil content returns immediately; without
access control the caching headers are set (Expires at now plus ten
minutes, rendered abstractly as a number of seconds); then Content-Type
and Last-Modified are set and the content is copied to the body.  The
fileName parameter is unused, as in the source. -/
def writeContent (h : Handler) (w : ResponseWriter) (now : Nat)
    (content : Option String) (_fileName : String) (modTime : Nat)
    (contentType : String) : ResponseWriter × Option String :=
  match content with
  | none => (w, none)
  | some data =>
    let w1 := if !h.lookupPath.hasAccessControl then
        { w with cacheControl := some "max-age=600",
                 expires := some (toString (now + 600)) }
      else w
    let w2 := { w1 with contentType := some contentType,
                        lastModified := some (toString modTime) }
    ({ w2 with body := w2.body ++ data }, none)

/-- The entry name used for the archive lookup in tryZipFile: the SubPath,
or index.html when the SubPath is empty (source lines 212 to 215). -/
def zipEntryName (subPath : String) : String :=
  if subPath == "" then "index.html" else subPath

/-- The tail of tryZipFile shared by the cache-hit and freshly-built
paths (source lines 212 to 227): open the entry, treat an error whose
message contains the substring "not found" as entry-absent, otherwise fail;
on success derive the content type from the entry name's extension and
write the content. -/
def serveZipEntry (env : Env) (st : CacheMap) (w : ResponseWriter)
    (h : Handler) (reader : Nat) :
    CacheMap × ResponseWriter × Bool × Option String :=
  match env.zipOpen reader (zipEntryName h.subPath) with
  | Except.error e =>
    if strContains e "not found" then (st, w, false, none)
    else (st, w, false, some ("failed to open file: " ++ e))
  | Except.ok (file, stat) =>
    let contentType := mimeTypeByExtension (fileExt stat.name)
    match writeContent h w env.now (some file.content) stat.name stat.modTime contentType with
    | (w2, err) => (st, w2, err.isNone, err)

/-- tryZipFile from the source (lines 177 to 228): consult the cache under
the mutex; a cached nil reader short-circuits to not-served; a missing key
fetches Path plus "artifactssssss.zip" from the provider, stores a nil
reader on ErrKeyNotFound, builds a zip reader otherwise and stores it;
then the entry is opened and served. -/
def tryZipFile (env : Env) (st : CacheMap) (w : ResponseWriter) (h : Handler) :
    CacheMap × ResponseWriter × Bool × Option String :=
  match lookupReader st h.lookupPath.projectID with
  | some none => (st, w, false, none)
  | some (some reader) => serveZipEntry env st w h reader
  | none =>
    match env.getObject (h.lookupPath.path ++ "artifactssssss.zip") with
    | GetObjectResult.keyNotFound =>
      (insertReader st h.lookupPath.projectID none, w, false, none)
    | GetObjectResult.failure e => (st, w, false, some ("failed to get object: " ++ e))
    | GetObjectResult.found obj =>
      match env.readerAt obj with
      | Except.error e => (st, w, false, some e)
      | Except.ok ra =>
        match env.zipNew ra obj.size with
        | Except.error e => (st, w, false, some ("failed create zip.Reader: " ++ e))
        | Except.ok reader =>
          serveZipEntry env (insertReader st h.lookupPath.projectID (some reader)) w h reader

/-- The object key used by serveFile (source lines 154 to 160): the lookup
path with one trailing slash trimmed, a slash, the sub-path when nonempty,
and index.html appended when the result still ends in a slash. -/
def serveFileName (path subPath : String) : String :=
  let f := trimSlashSuffix path ++ "/"
  let f := if subPath != "" then f ++ subPath else f
  if endsWithSlash f then f ++ "index.html" else f

/-- serveFile from the source (lines 152 to 175): fetch the normalized
name directly from the provider; ErrKeyNotFound is swallowed (nil error),
other errors propagate; on success the object is written with the
provider-reported content type. -/
def serveFile (env : Env) (w : ResponseWriter) (h : Handler) :
    ResponseWriter × Option String :=
  match env.getObject (serveFileName h.lookupPath.path h.subPath) with
  | GetObjectResult.keyNotFound => (w, none)
  | GetObjectResult.failure e => (w, some e)
  | GetObjectResult.found obj =>
    match writeContent h w env.now (some obj.content) obj.name obj.modTime obj.contentType with
    | (w2, err) => (w2, err)

/-- ServeFileHTTP from the source (lines 129 to 142): an error from
tryZipFile yields false; otherwise, when the zip path did not serve, an
error from serveFile yields false; in every other case true. -/
def ServeFileHTTP (env : Env) (st : CacheMap) (w : ResponseWriter) (h : Handler) :
    CacheMap × ResponseWriter × Bool :=
  match tryZipFile env st w h with
  | (st1, w1, _, some _) => (st1, w1, false)
  | (st1, w1, served, none) =>
    if !served then
      match serveFile env w1 h with
      | (w2, some _) => (st1, w2, false)
      | (w2, none) => (st1, w2, true)
    else (st1, w1, true)

/-!
An interleaving model of the cache-population section of tryZipFile
(source lines 179 to 209) for two concurrent requests with the same
not-yet-probed project key.  Each task performs three atomic actions,
exactly the granularity the mutex gives the source: the locked map read
(lines 179 to 181), the unlocked build (GetObject, ReaderAt and zip.New,
lines 188 to 205), and the locked map write (lines 207 to 209).  A
schedule is a list of booleans choosing which task steps next.
-/

/-- Program counter of one task through the cache-population section. -/
inductive TaskPc where
  | atRead
  | atBuild
  | atWrite
  | finished
  deriving Repr, DecidableEq

/-- Shared state of the two-task race: the cachedReaders entry for the
contended key (none when the key is unprobed), the number of archive
builds executed so far, and each task's program counter. -/
structure BuildRace where
  cacheEntry : Option (Option Nat)
  builds : Nat
  pc1 : TaskPc
  pc2 : TaskPc
  deriving Repr, DecidableEq

/-- One atomic action of a task: the locked read moves to the build only
when the key is still absent and finishes on any hit; the build increments
the build counter; the locked write stores the built reader. -/
def taskStep (pc : TaskPc) (cache : Option (Option Nat)) (builds : Nat)
    (tid : Nat) : TaskPc × Option (Option Nat) × Nat :=
  match pc with
  | TaskPc.atRead =>
    match cache with
    | some _ => (TaskPc.finished, cache, builds)
    | none => (TaskPc.atBuild, cache, builds)
  | TaskPc.atBuild => (TaskPc.atWrite, cache, builds + 1)
  | TaskPc.atWrite => (TaskPc.finished, some (some tid), builds)
  | TaskPc.finished => (TaskPc.finished, cache, builds)

/-- Advance the chosen task by one atomic action. -/
def raceStep (s : BuildRace) (chooseFirst : Bool) : BuildRace :=
  if chooseFirst then
    match taskStep s.pc1 s.cacheEntry s.builds 1 with
    | (pc, cache, builds) => { s with pc1 := pc, cacheEntry := cache, builds := builds }
  else
    match taskStep s.pc2 s.cacheEntry s.builds 2 with
    | (pc, cache, builds) => { s with pc2 := pc, cacheEntry := cache, builds := builds }

/-- Run a schedule from a state. -/
def raceRun (s : BuildRace) : List Bool → BuildRace
  | [] => s
  | c :: cs => raceRun (raceStep s c) cs

/-- Both tasks start at the locked read with the key unprobed. -/
def raceInit : BuildRace :=
  { cacheEntry := none, builds := 0, pc1 := TaskPc.atRead, pc2 := TaskPc.atRead }

end ObjectStorage

namespace HttpRange

/-!
The httprange ranged-reader layer.  Its implementation is not part of the
given sources (only its tests are, in the httprange test file), so the
definitions below are modelled from the specification of RangedResource,
RangedReader and SectionReader and checked against the expectations of
TestReadAt, TestSectionReader and TestReadAtMultipart.
-/

/-- Modelled from the spec: a RangedResource is one remote byte-addressable
object; its size is the length of its content. -/
structure RangedResource where
  content : List Nat
  deriving Repr, DecidableEq

/-- Modelled from the spec: the discovered total size of the resource. -/
def RangedResource.size (r : RangedResource) : Nat := r.content.length

/-- Modelled from the spec: the error taxonomy relevant to reads, the
InvalidRangeError for bytes requested outside the resource's bounds. -/
inductive ReadErr where
  | invalidRange
  deriving Repr, DecidableEq

/-- Modelled from the spec: readAt with pread semantics.  A zero-length
read succeeds at any offset up to and including the size; a non-zero read
starting at or beyond the size fails with InvalidRangeError; otherwise the
available bytes are returned together with an end-of-stream flag set when
fewer bytes than requested were available. -/
def readAt (r : RangedResource) (offset length : Nat) :
    Except ReadErr (List Nat × Bool) :=
  if length = 0 then
    if offset ≤ r.size then Except.ok ([], false) else Except.error ReadErr.invalidRange
  else if r.size ≤ offset then Except.error ReadErr.invalidRange
  else
    let chunk := (r.content.drop offset).take length
    Except.ok (chunk, chunk.length < length)

/-- Modelled from the spec: a SectionReader is a bounded view of the
resource with a start, a length and a read cursor. -/
structure SectionReader where
  resource : RangedResource
  start : Nat
  length : Nat
  cursor : Nat
  deriving Repr, DecidableEq

/-- Modelled from the spec: one Read call on a SectionReader.  Reaching
the bound yields end-of-stream, not an error; otherwise the read is
delegated to readAt at the current absolute position, so an offset at or
past the resource size with bytes still requested is rejected with
InvalidRangeError. -/
def SectionReader.read (s : SectionReader) (bufLen : Nat) :
    Except ReadErr (List Nat × SectionReader × Bool) :=
  let n := min bufLen (s.length - s.cursor)
  if n = 0 then Except.ok ([], s, true)
  else
    match readAt s.resource (s.start + s.cursor) n with
    | Except.error e => Except.error e
    | Except.ok (chunk, _) =>
      let s' : SectionReader :=
        { s with cursor := s.cursor + chunk.length }
      Except.ok (chunk, s', decide (s.length ≤ s'.cursor))

/-- Modelled from the spec: the state of a cached session, the open
cursor position (none before any read) and the number of range requests
issued within the session. -/
structure CachedSession where
  cursor : Option Nat
  requests : Nat
  deriving Repr, DecidableEq

/-- Modelled from the spec: readAt inside a cached session.  A sequential
forward read at the open cursor is satisfied from the open connection
without a new request; any other read forces a fresh request and resets
the cursor. -/
def cachedReadAt (r : RangedResource) (st : CachedSession)
    (offset length : Nat) : Except ReadErr (List Nat × CachedSession) :=
  match readAt r offset length with
  | Except.error e => Except.error e
  | Except.ok (chunk, _) =>
    if st.cursor = some offset then
      Except.ok (chunk, { cursor := some (offset + length), requests := st.requests })
    else
      Except.ok (chunk, { cursor := some (offset + length), requests := st.requests + 1 })

/-- Modelled from the spec: an ephemeral readAt issues exactly one range
request of its own per call. -/
def ephemeralReadAt (r : RangedResource) (requests : Nat)
    (offset length : Nat) : Except ReadErr (List Nat × Nat) :=
  match readAt r offset length with
  | Except.error e => Except.error e
  | Except.ok (chunk, _) => Except.ok (chunk, requests + 1)

/-- The initial resource-size discovery performed when the resource is
opened issues one request of its own; read requests are counted beyond
it. -/
def resourceDiscoveryRequests : Nat := 1

/-- Run a list of read lengths sequentially through a cached session,
starting at the given offset; none on a range error. -/
def runCachedReads (r : RangedResource) :
    CachedSession → Nat → List Nat → Option CachedSession
  | st, _, [] => some st
  | st, off, l :: ls =>
    match cachedReadAt r st off l with
    | Except.error _ => none
    | Except.ok (_, st') => runCachedReads r st' (off + l) ls

/-- Run a list of read lengths sequentially in ephemeral mode, starting
at the given offset; none on a range error. -/
def runEphemeralReads (r : RangedResource) :
    Nat → Nat → List Nat → Option Nat
  | reqs, _, [] => some reqs
  | reqs, off, l :: ls =>
    match ephemeralReadAt r reqs off l with
    | Except.error _ => none
    | Except.ok (_, reqs') => runEphemeralReads r reqs' (off + l) ls

end HttpRange

namespace ObjectStorage

/-!
Concrete environments and handlers used to evaluate the embedded client
on specific inputs.
-/

/-- An environment in which no object exists at all: every GetObject call
reports ErrKeyNotFound. -/
def env0 : Env :=
  { getObject := fun _ => GetObjectResult.keyNotFound,
    readerAt := fun _ => Except.error "unused",
    zipNew := fun _ _ => Except.error "unused",
    zipOpen := fun _ _ => Except.error "unused",
    now := 0 }

/-- A request for the root of project 7 (empty sub-path, no access
control). -/
def h0 : Handler :=
  { lookupPath := { projectID := 7, path := "group/project/", hasAccessControl := false },
    subPath := "" }

/-- An environment in which the archive object exists but is malformed:
zip.New fails on it. -/
def env4 : Env :=
  { getObject := fun k =>
      if k == "group/project/artifactssssss.zip" then
        GetObjectResult.found
          { name := "artifactssssss.zip", size := 100, modTime := 0,
            contentType := "application/zip", content := "PKgarbage" }
      else GetObjectResult.keyNotFound,
    readerAt := fun _ => Except.ok 1,
    zipNew := fun _ _ => Except.error "malformed archive: end of central directory missing",
    zipOpen := fun _ _ => Except.error "unused",
    now := 0 }

/-- Modelled from the spec: the entry-name normalization performed inside
the zip Reader.Open of the internal zip package, which is absent from the
given sources (tryZipFile is its caller): an empty or trailing-slash
entry name is treated as index.html under that prefix, matching
conventional static-site defaults, before the entry mapping is
consulted. -/
def zipOpenNormalize (name : String) : String :=
  if name == "" then "index.html"
  else if endsWithSlash name then name ++ "index.html"
  else name

/-- An environment whose archive serves an entry with an extension absent
from the mime table. -/
def env6 : Env :=
  { getObject := fun _ => GetObjectResult.keyNotFound,
    readerAt := fun _ => Except.error "unused",
    zipNew := fun _ _ => Except.error "unused",
    zipOpen := fun _ _ =>
      Except.ok ({ content := "binary payload" }, { name := "file.foobar", modTime := 9 }),
    now := 0 }

/-- A request for project 5 for a file with an unknown extension. -/
def h6 : Handler :=
  { lookupPath := { projectID := 5, path := "group/project/", hasAccessControl := false },
    subPath := "file.foobar" }

/-- An environment whose archive open fails with a transport error whose
message happens to contain the words "not found". -/
def env10 : Env :=
  { getObject := fun _ => GetObjectResult.keyNotFound,
    readerAt := fun _ => Except.error "unused",
    zipNew := fun _ _ => Except.error "unused",
    zipOpen := fun _ _ => Except.error "transport glitch: endpoint not found",
    now := 0 }

end ObjectStorage

namespace ObjectStorage

/-- Claim C1: the spec requires that when the tenant has no archive entry
for the request and the direct-object fetch of the normalized path also
reports not-found, ServeFileHTTP reports NotServed (returns false).  The
code instead returns true: serveFile swallows ErrKeyNotFound as a nil
error, and ServeFileHTTP treats a nil error as served.  Evaluated at an
environment where no object exists at all, ServeFileHTTP returns true
and writes nothing to the response. -/
theorem serveFileHTTP_nothing_found_reports_served :
    (ServeFileHTTP env0 [] ResponseWriter.empty h0).2.2 = true ∧
    (ServeFileHTTP env0 [] ResponseWriter.empty h0).2.1 = ResponseWriter.empty := by
  constructor <;> rfl

/-- Claim C2, counterexample: in the interleaving model of the
cache-population section of tryZipFile, the schedule in which both tasks
perform their locked cache read before either writes drives both to the
build: two archive builds execute for the same not-yet-probed key,
refuting the claim that exactly one build executes. -/
theorem buildRace_concurrent_two_builds :
    (raceRun raceInit [true, false, true, true, false, false]).pc1 = TaskPc.finished ∧
    (raceRun raceInit [true, false, true, true, false, false]).pc2 = TaskPc.finished ∧
    (raceRun raceInit [true, false, true, true, false, false]).builds = 2 ∧
    ¬ (raceRun raceInit [true, false, true, true, false, false]).builds = 1 := by
  decide

/-- Claim C2, amended: the cache read and the cache write are individually
mutex-protected but the build runs outside the critical section, so the
number of builds depends on the schedule: when one request completes its
cache write before the other reads, one build executes; when both read
before either writes, both build. -/
theorem buildRace_schedule_dependent_builds :
    (raceRun raceInit [true, true, true, false]).builds = 1 ∧
    (raceRun raceInit [true, true, true, false]).pc1 = TaskPc.finished ∧
    (raceRun raceInit [true, true, true, false]).pc2 = TaskPc.finished ∧
    (raceRun raceInit [true, false, true, true, false, false]).builds = 2 := by
  decide

/-- Claim C3: for an unprobed key, a build failure caused by the archive
object being absent (ErrKeyNotFound) stores a nil reader in the cache, and
every subsequent request for that key returns not-served immediately, for
any environment, without touching the provider; any other build failure
(a transport failure on the fetch, a ReaderAt failure, or a zip.New
failure) leaves the cache unchanged, so the next request retries. -/
theorem tryZipFile_cache_classification (env : Env) (st : CacheMap)
    (w : ResponseWriter) (h : Handler)
    (hmiss : lookupReader st h.lookupPath.projectID = none) :
    (env.getObject (h.lookupPath.path ++ "artifactssssss.zip") = GetObjectResult.keyNotFound →
       tryZipFile env st w h = (insertReader st h.lookupPath.projectID none, w, false, none) ∧
       ∀ env' w', tryZipFile env' (insertReader st h.lookupPath.projectID none) w' h =
         (insertReader st h.lookupPath.projectID none, w', false, none)) ∧
    (∀ e, env.getObject (h.lookupPath.path ++ "artifactssssss.zip") = GetObjectResult.failure e →
       (tryZipFile env st w h).1 = st) ∧
    (∀ obj e, env.getObject (h.lookupPath.path ++ "artifactssssss.zip") = GetObjectResult.found obj →
       env.readerAt obj = Except.error e → (tryZipFile env st w h).1 = st) ∧
    (∀ obj ra e, env.getObject (h.lookupPath.path ++ "artifactssssss.zip") = GetObjectResult.found obj →
       env.readerAt obj = Except.ok ra → env.zipNew ra obj.size = Except.error e →
       (tryZipFile env st w h).1 = st) := by
  refine ⟨?_, ?_, ?_, ?_⟩
  · intro hnf
    constructor
    · unfold tryZipFile
      rw [hmiss, hnf]
    · intro env' w'
      unfold tryZipFile
      have : lookupReader (insertReader st h.lookupPath.projectID none) h.lookupPath.projectID
          = some none := by
        simp [lookupReader, insertReader, List.lookup]
      rw [this]
  · intro e he
    unfold tryZipFile
    rw [hmiss, he]
  · intro obj e hobj hra
    unfold tryZipFile
    rw [hmiss, hobj]
    dsimp only
    rw [hra]
  · intro obj ra e hobj hra hz
    unfold tryZipFile
    rw [hmiss, hobj]
    dsimp only
    rw [hra]
    dsimp only
    rw [hz]

/-- Witness for claim C3 at a concrete input: an empty cache, the
environment with no objects, and the root request for project 7. -/
theorem tryZipFile_cache_classification_witness :
    lookupReader ([] : CacheMap) h0.lookupPath.projectID = none ∧
    env0.getObject (h0.lookupPath.path ++ "artifactssssss.zip") = GetObjectResult.keyNotFound ∧
    tryZipFile env0 [] ResponseWriter.empty h0
      = (insertReader [] h0.lookupPath.projectID none, ResponseWriter.empty, false, none) ∧
    tryZipFile env0 (insertReader [] h0.lookupPath.projectID none) ResponseWriter.empty h0
      = (insertReader [] h0.lookupPath.projectID none, ResponseWriter.empty, false, none) := by
  refine ⟨rfl, rfl, ?_, ?_⟩
  · exact ((tryZipFile_cache_classification env0 [] ResponseWriter.empty h0 rfl).1 rfl).1
  · exact ((tryZipFile_cache_classification env0 [] ResponseWriter.empty h0 rfl).1 rfl).2
      env0 ResponseWriter.empty

/-- Claim C4, counterexample: the spec requires a malformed-archive
failure to surface as a server-side failure distinct from not-found, but
when zip.New fails on the fetched archive, ServeFileHTTP returns false,
the same NotServed outcome that makes the caller render the not-found
page. -/
theorem serveFileHTTP_malformed_archive_not_served_cex :
    (ServeFileHTTP env4 [] ResponseWriter.empty h0).2.2 = false ∧
    (ServeFileHTTP env4 [] ResponseWriter.empty h0).1 = [] := by
  constructor <;> rfl

/-- Claim C4, amended: a transport failure on the archive fetch, a
malformed archive rejected by zip.New, or an entry-open failure whose
message does not contain the words "not found" is indeed never cached (the
cache state is unchanged, so the next request retries and the failure is
not recorded as content absent), but ServeFileHTTP reports NotServed
(false) for such a request, so the caller renders the not-found page; the
failure is distinguished from not-found only in the log. -/
theorem serveFileHTTP_failure_not_served (env : Env) (st : CacheMap)
    (w : ResponseWriter) (h : Handler) :
    (∀ e, lookupReader st h.lookupPath.projectID = none →
       env.getObject (h.lookupPath.path ++ "artifactssssss.zip") = GetObjectResult.failure e →
       (ServeFileHTTP env st w h).2.2 = false ∧ (ServeFileHTTP env st w h).1 = st) ∧
    (∀ obj ra e, lookupReader st h.lookupPath.projectID = none →
       env.getObject (h.lookupPath.path ++ "artifactssssss.zip") = GetObjectResult.found obj →
       env.readerAt obj = Except.ok ra → env.zipNew ra obj.size = Except.error e →
       (ServeFileHTTP env st w h).2.2 = false ∧ (ServeFileHTTP env st w h).1 = st) ∧
    (∀ reader e, lookupReader st h.lookupPath.projectID = some (some reader) →
       env.zipOpen reader (zipEntryName h.subPath) = Except.error e →
       strContains e "not found" = false →
       (ServeFileHTTP env st w h).2.2 = false ∧ (ServeFileHTTP env st w h).1 = st) := by
  refine ⟨?_, ?_, ?_⟩
  · intro e hmiss hfail
    have ht : tryZipFile env st w h = (st, w, false, some ("failed to get object: " ++ e)) := by
      unfold tryZipFile
      rw [hmiss, hfail]
    constructor <;> · unfold ServeFileHTTP; rw [ht]
  · intro obj ra e hmiss hobj hra hz
    have ht : tryZipFile env st w h = (st, w, false, some ("failed create zip.Reader: " ++ e)) := by
      unfold tryZipFile
      rw [hmiss, hobj]
      dsimp only
      rw [hra]
      dsimp only
      rw [hz]
    constructor <;> · unfold ServeFileHTTP; rw [ht]
  · intro reader e hhit hopen hsub
    have ht : tryZipFile env st w h = (st, w, false, some ("failed to open file: " ++ e)) := by
      unfold tryZipFile
      rw [hhit]
      dsimp only
      unfold serveZipEntry
      rw [hopen]
      dsimp only
      rw [hsub]
      simp
    constructor <;> · unfold ServeFileHTTP; rw [ht]

/-- Witness for the amended claim C4 at a concrete input: the malformed
archive of env4 with an empty cache. -/
theorem serveFileHTTP_failure_not_served_witness :
    lookupReader ([] : CacheMap) h0.lookupPath.projectID = none ∧
    (ServeFileHTTP env4 [] ResponseWriter.empty h0).2.2 = false ∧
    (ServeFileHTTP env4 [] ResponseWriter.empty h0).1 = [] := by
  have h := (serveFileHTTP_failure_not_served env4 [] ResponseWriter.empty h0).2.1
    { name := "artifactssssss.zip", size := 100, modTime := 0,
      contentType := "application/zip", content := "PKgarbage" }
    1 "malformed archive: end of central directory missing" rfl rfl rfl rfl
  exact ⟨rfl, h.1, h.2⟩

/-- Claim C5: an empty or trailing-slash request path is normalized to
index.html under that prefix before lookup on both serving paths.  On the
archive-backed path, tryZipFile substitutes index.html for an empty
sub-path and the zip reader's open, modelled from the spec, normalizes a
trailing-slash name to index.html under that prefix, so the effective
entry looked up in the archive is index.html under the request prefix in
both cases; on the direct-object path, serveFile appends index.html
whenever the combined object name ends in a slash, covering the same two
cases. -/
theorem path_normalization_to_index (p sp : String) :
    zipOpenNormalize (zipEntryName "") = "index.html" ∧
    (endsWithSlash sp = true →
       zipOpenNormalize (zipEntryName sp) = sp ++ "index.html") ∧
    serveFileName p "" = trimSlashSuffix p ++ "/" ++ "index.html" ∧
    (endsWithSlash sp = true →
       serveFileName p sp = trimSlashSuffix p ++ "/" ++ sp ++ "index.html") := by
  have hslash : ∀ s : String, endsWithSlash (s ++ "/") = true := by
    intro s
    simp [endsWithSlash, String.toList, String.data_append]
  have hne_of_slash : ∀ s : String, endsWithSlash s = true → ¬ s = "" := by
    intro s hs hc
    subst hc
    simp [endsWithSlash] at hs
  refine ⟨by decide, ?_, ?_, ?_⟩
  · intro hsp2
    have hne : ¬ sp = "" := hne_of_slash sp hsp2
    unfold zipOpenNormalize zipEntryName
    simp [hne, hsp2]
  · unfold serveFileName
    simp [hslash]
  · intro hsp2
    unfold serveFileName
    have hne : sp ≠ "" := hne_of_slash sp hsp2
    have hdata : sp.data ≠ [] := by
      intro hc
      apply hne
      cases sp with
      | mk d =>
        simp only at hc
        simp [hc]
    have h2 : endsWithSlash (trimSlashSuffix p ++ "/" ++ sp) = true := by
      unfold endsWithSlash at hsp2 ⊢
      simp only [String.toList, String.data_append, beq_iff_eq] at hsp2 ⊢
      rw [List.getLast?_append_of_ne_nil _ hdata]
      exact hsp2
    simp [hne, h2]

/-- Witness for claim C5 at concrete inputs: the empty sub-path and the
trailing-slash sub-path "sub/". -/
theorem path_normalization_to_index_witness :
    endsWithSlash "sub/" = true ∧
    zipOpenNormalize (zipEntryName "") = "index.html" ∧
    zipOpenNormalize (zipEntryName "sub/") = "sub/" ++ "index.html" ∧
    serveFileName "group/project" ""
      = trimSlashSuffix "group/project" ++ "/" ++ "index.html" ∧
    serveFileName "group/project" "sub/"
      = trimSlashSuffix "group/project" ++ "/" ++ "sub/" ++ "index.html" := by
  have h := path_normalization_to_index "group/project" "sub/"
  exact ⟨by decide, h.1, h.2.1 (by decide), h.2.2.1, h.2.2.2 (by decide)⟩

/-- Claim C6, counterexample: the spec requires an unknown extension to
default to a generic binary content type and the header never to be left
empty, but mime.TypeByExtension yields the empty string for an unknown
extension and the code writes it unchanged: serving an archive entry named
file.foobar sets an empty Content-Type header. -/
theorem unknown_extension_empty_content_type_cex :
    (tryZipFile env6 [(5, some 3)] ResponseWriter.empty h6).2.1.contentType = some "" ∧
    ¬ (tryZipFile env6 [(5, some 3)] ResponseWriter.empty h6).2.1.contentType
        = some "application/octet-stream" ∧
    (tryZipFile env6 [(5, some 3)] ResponseWriter.empty h6).2.2.1 = true := by
  refine ⟨rfl, by decide, rfl⟩

/-- Claim C6, amended: for archive-served files the Content-Type header is
the case-insensitive builtin-table lookup of the entry name's extension,
which is the empty string when the extension is unknown; files served
through the direct-object path use the provider-reported content type
instead of the extension table. -/
theorem content_type_policy (env : Env) (st : CacheMap) (w : ResponseWriter)
    (h : Handler) (reader : Nat) (file : ZipFile) (stat : ZipFileStat)
    (hhit : lookupReader st h.lookupPath.projectID = some (some reader))
    (hopen : env.zipOpen reader (zipEntryName h.subPath) = Except.ok (file, stat)) :
    (tryZipFile env st w h).2.1.contentType
      = some (mimeTypeByExtension (fileExt stat.name)) ∧
    mimeTypeByExtension ".HTML" = "text/html; charset=utf-8" ∧
    mimeTypeByExtension ".foobar" = "" ∧
    (∀ obj, env.getObject (serveFileName h.lookupPath.path h.subPath) = GetObjectResult.found obj →
       (serveFile env w h).1.contentType = some obj.contentType) := by
  refine ⟨?_, rfl, rfl, ?_⟩
  · unfold tryZipFile
    rw [hhit]
    dsimp only
    unfold serveZipEntry
    rw [hopen]
    dsimp only
    unfold writeContent
    cases h.lookupPath.hasAccessControl <;> simp
  · intro obj hobj
    unfold serveFile
    rw [hobj]
    dsimp only
    unfold writeContent
    cases h.lookupPath.hasAccessControl <;> simp

/-- Witness for the amended claim C6 at a concrete input: the archive of
env6 with its entry of unknown extension. -/
theorem content_type_policy_witness :
    lookupReader [(5, some 3)] h6.lookupPath.projectID = some (some 3) ∧
    (tryZipFile env6 [(5, some 3)] ResponseWriter.empty h6).2.1.contentType
      = some (mimeTypeByExtension (fileExt "file.foobar")) :=
  ⟨rfl, (content_type_policy env6 [(5, some 3)] ResponseWriter.empty h6 3
      { content := "binary payload" } { name := "file.foobar", modTime := 9 } rfl rfl).1⟩

/-- Claim C10: any error returned by the zip reader's Open whose message
contains the substring "not found", of whatever origin, makes tryZipFile
return not-served with no error, so ServeFileHTTP falls through to the
direct-object path exactly as when the entry is genuinely absent. -/
theorem zipOpen_not_found_substring_falls_through (env : Env) (st : CacheMap)
    (w : ResponseWriter) (h : Handler) (reader : Nat) (e : String)
    (hhit : lookupReader st h.lookupPath.projectID = some (some reader))
    (hopen : env.zipOpen reader (zipEntryName h.subPath) = Except.error e)
    (hsub : strContains e "not found" = true) :
    tryZipFile env st w h = (st, w, false, none) ∧
    (ServeFileHTTP env st w h).2.2 = ((serveFile env w h).2).isNone := by
  have ht : tryZipFile env st w h = (st, w, false, none) := by
    unfold tryZipFile
    rw [hhit]
    dsimp only
    unfold serveZipEntry
    rw [hopen]
    dsimp only
    rw [hsub]
    simp
  refine ⟨ht, ?_⟩
  unfold ServeFileHTTP
  rw [ht]
  dsimp only
  rcases hsf : serveFile env w h with ⟨w2, err⟩
  cases err <;> simp

/-- Witness for claim C10 at a concrete input: a transport error message
that merely contains the words "not found". -/
theorem zipOpen_not_found_substring_falls_through_witness :
    strContains "transport glitch: endpoint not found" "not found" = true ∧
    tryZipFile env10 [(5, some 3)] ResponseWriter.empty h6
      = ([(5, some 3)], ResponseWriter.empty, false, none) := by
  refine ⟨by decide, ?_⟩
  exact (zipOpen_not_found_substring_falls_through env10 [(5, some 3)] ResponseWriter.empty h6 3
    "transport glitch: endpoint not found" rfl rfl (by decide)).1

end ObjectStorage

namespace HttpRange

/-- Helper: a read wholly inside the resource succeeds and returns exactly
the corresponding slice of the content, with no end-of-stream signal. -/
theorem readAt_ok_of_le (content : List Nat) (offset length : Nat)
    (h : offset + length ≤ content.length) :
    readAt ⟨content⟩ offset length
      = Except.ok ((content.drop offset).take length, false) := by
  unfold readAt
  rcases Nat.eq_zero_or_pos length with hl | hl
  · subst hl
    rw [if_pos rfl, if_pos (show offset ≤ RangedResource.size ⟨content⟩ by
      simp [RangedResource.size]; omega)]
    simp
  · rw [if_neg (by omega)]
    rw [if_neg (show ¬ RangedResource.size ⟨content⟩ ≤ offset by
      simp [RangedResource.size]; omega)]
    have hchunk : ((content.drop offset).take length).length = length := by
      simp [List.length_take, List.length_drop]
      omega
    simp [hchunk]

/-- Helper: a cached read exactly at the open cursor consumes from the
open connection without issuing a new request. -/
theorem cachedReadAt_at_cursor (content : List Nat) (off l reqs : Nat)
    (h : off + l ≤ content.length) :
    cachedReadAt ⟨content⟩ { cursor := some off, requests := reqs } off l
      = Except.ok ((content.drop off).take l,
          { cursor := some (off + l), requests := reqs }) := by
  unfold cachedReadAt
  rw [readAt_ok_of_le content off l h]
  simp

/-- Helper: a run of sequential forward reads starting at the open cursor
issues no request at all. -/
theorem runCachedReads_at_cursor (content : List Nat) :
    ∀ (ls : List Nat) (off reqs : Nat),
      off + ls.sum ≤ content.length →
      runCachedReads ⟨content⟩ { cursor := some off, requests := reqs } off ls
        = some { cursor := some (off + ls.sum), requests := reqs }
  | [], off, reqs, _ => by simp [runCachedReads]
  | l :: ls, off, reqs, hle => by
    have hsums : off + l + ls.sum ≤ content.length := by
      simp [List.sum_cons] at hle
      omega
    have hstep : off + l ≤ content.length := by omega
    unfold runCachedReads
    rw [cachedReadAt_at_cursor content off l reqs hstep]
    dsimp only
    rw [runCachedReads_at_cursor content ls (off + l) reqs hsums]
    simp [List.sum_cons]
    omega

/-- Helper: a run of in-bounds ephemeral reads issues one request per
read. -/
theorem runEphemeralReads_counts (content : List Nat) :
    ∀ (ls : List Nat) (off reqs : Nat), off + ls.sum ≤ content.length →
      runEphemeralReads ⟨content⟩ reqs off ls = some (reqs + ls.length)
  | [], off, reqs, _ => by simp [runEphemeralReads]
  | l :: ls, off, reqs, hle => by
    have hsums : off + l + ls.sum ≤ content.length := by
      simp [List.sum_cons] at hle
      omega
    have hstep : off + l ≤ content.length := by omega
    unfold runEphemeralReads ephemeralReadAt
    rw [readAt_ok_of_le content off l hstep]
    dsimp only
    rw [runEphemeralReads_counts content ls (off + l) (reqs + 1) hsums]
    simp
    omega

/-- Claim C7: a zero-length read succeeds at every offset up to and
including the size; a non-zero-length read starting at or beyond the size
fails with InvalidRangeError, through readAt in either mode and through a
SectionReader read. -/
theorem read_bounds_validation (content : List Nat) :
    (∀ offset, offset ≤ content.length →
       readAt ⟨content⟩ offset 0 = Except.ok ([], false)) ∧
    (∀ offset length, 0 < length → content.length ≤ offset →
       readAt ⟨content⟩ offset length = Except.error ReadErr.invalidRange) ∧
    (∀ offset length st, 0 < length → content.length ≤ offset →
       cachedReadAt ⟨content⟩ st offset length = Except.error ReadErr.invalidRange) ∧
    (∀ start slen bufLen, content.length ≤ start → 0 < min bufLen slen →
       SectionReader.read ⟨⟨content⟩, start, slen, 0⟩ bufLen
         = Except.error ReadErr.invalidRange) := by
  have herr : ∀ offset length, 0 < length → content.length ≤ offset →
      readAt ⟨content⟩ offset length = Except.error ReadErr.invalidRange := by
    intro o l hl ho
    unfold readAt
    rw [if_neg (by omega), if_pos (show RangedResource.size ⟨content⟩ ≤ o by
      simpa [RangedResource.size] using ho)]
  refine ⟨?_, herr, ?_, ?_⟩
  · intro o ho
    unfold readAt
    rw [if_pos rfl, if_pos (show o ≤ RangedResource.size ⟨content⟩ by
      simpa [RangedResource.size] using ho)]
  · intro o l st hl ho
    unfold cachedReadAt
    rw [herr o l hl ho]
  · intro start slen bufLen hs hmin
    unfold SectionReader.read
    simp only [Nat.sub_zero]
    rw [if_neg (by omega)]
    rw [herr (start + 0) (min bufLen slen) hmin (by omega)]

/-- Witness for claim C7 at a concrete resource of size three. -/
theorem read_bounds_validation_witness :
    readAt ⟨[1, 2, 3]⟩ 3 0 = Except.ok ([], false) ∧
    readAt ⟨[1, 2, 3]⟩ 3 1 = Except.error ReadErr.invalidRange ∧
    cachedReadAt ⟨[1, 2, 3]⟩ ⟨none, 0⟩ 3 1 = Except.error ReadErr.invalidRange ∧
    SectionReader.read ⟨⟨[1, 2, 3]⟩, 3, 1, 0⟩ 1 = Except.error ReadErr.invalidRange := by
  refine ⟨(read_bounds_validation [1, 2, 3]).1 3 (by decide),
    (read_bounds_validation [1, 2, 3]).2.1 3 1 (by decide) (by decide),
    (read_bounds_validation [1, 2, 3]).2.2.1 3 1 ⟨none, 0⟩ (by decide) (by decide),
    (read_bounds_validation [1, 2, 3]).2.2.2 3 1 1 (by decide) (by decide)⟩

/-- Claim C8: every in-bounds read returns exactly the bytes of the
content at the requested span, through readAt, through a cached-session
read from any session state, and through a SectionReader over that
span. -/
theorem read_returns_exact_slice (content : List Nat) (offset length : Nat)
    (h : offset + length ≤ content.length) :
    readAt ⟨content⟩ offset length
      = Except.ok ((content.drop offset).take length, false) ∧
    (∀ st : CachedSession, cachedReadAt ⟨content⟩ st offset length =
       Except.ok ((content.drop offset).take length,
         { cursor := some (offset + length),
           requests := if st.cursor = some offset then st.requests else st.requests + 1 })) ∧
    (SectionReader.read ⟨⟨content⟩, offset, length, 0⟩ length).toOption.map
        (fun x => x.1) = some ((content.drop offset).take length) := by
  have h1 := readAt_ok_of_le content offset length h
  refine ⟨h1, ?_, ?_⟩
  · intro st
    unfold cachedReadAt
    rw [h1]
    dsimp only
    by_cases hcur : st.cursor = some offset <;> simp [hcur]
  · unfold SectionReader.read
    simp only [Nat.sub_zero, Nat.min_self]
    rcases Nat.eq_zero_or_pos length with hl | hl
    · subst hl
      rfl
    · rw [if_neg (by omega)]
      rw [show offset + 0 = offset from rfl, h1]
      rfl

/-- Witness for claim C8 at a concrete resource, the middle slice. -/
theorem read_returns_exact_slice_witness :
    1 + 3 ≤ ([10, 20, 30, 40, 50] : List Nat).length ∧
    readAt ⟨[10, 20, 30, 40, 50]⟩ 1 3 = Except.ok ([20, 30, 40], false) :=
  ⟨by decide, (read_returns_exact_slice [10, 20, 30, 40, 50] 1 3 (by decide)).1⟩

/-- Claim C9: sequential forward reads that together cover the whole
resource issue exactly one range request inside a cached session, beyond
the single resource-size discovery request, whereas the same reads in
ephemeral mode issue one request each. -/
theorem cached_vs_ephemeral_request_counts (content : List Nat) (ls : List Nat)
    (hne : ls ≠ []) (hpos : ∀ l ∈ ls, 0 < l) (hsum : ls.sum = content.length) :
    runCachedReads ⟨content⟩ { cursor := none, requests := 0 } 0 ls
      = some { cursor := some content.length, requests := 1 } ∧
    runEphemeralReads ⟨content⟩ 0 0 ls = some ls.length ∧
    resourceDiscoveryRequests = 1 := by
  refine ⟨?_, ?_, rfl⟩
  · rcases ls with _ | ⟨l, ls⟩
    · exact absurd rfl hne
    · have hsums : 0 + l + ls.sum ≤ content.length := by
        simp [List.sum_cons] at hsum
        omega
      have hstep : 0 + l ≤ content.length := by omega
      unfold runCachedReads cachedReadAt
      rw [readAt_ok_of_le content 0 l (by simpa using hstep)]
      dsimp only
      rw [if_neg (by simp)]
      dsimp only
      simp only [Nat.zero_add]
      rw [runCachedReads_at_cursor content ls l 1 (by omega)]
      have hfin : l + ls.sum = content.length := by
        simp [List.sum_cons] at hsum
        omega
      rw [hfin]
  · have := runEphemeralReads_counts content ls 0 0 (by omega)
    simpa using this

/-- Witness for claim C9: two reads of lengths two and three covering a
resource of size five. -/
theorem cached_vs_ephemeral_request_counts_witness :
    (([2, 3] : List Nat) ≠ [] ∧ (∀ l ∈ ([2, 3] : List Nat), 0 < l) ∧
       ([2, 3] : List Nat).sum = ([5, 6, 7, 8, 9] : List Nat).length) ∧
    runCachedReads ⟨[5, 6, 7, 8, 9]⟩ { cursor := none, requests := 0 } 0 [2, 3]
      = some { cursor := some 5, requests := 1 } ∧
    runEphemeralReads ⟨[5, 6, 7, 8, 9]⟩ 0 0 [2, 3] = some 2 := by
  refine ⟨⟨by decide, by decide, by decide⟩, ?_, ?_⟩
  · exact (cached_vs_ephemeral_request_counts [5, 6, 7, 8, 9] [2, 3]
      (by decide) (by decide) (by decide)).1
  · exact (cached_vs_ephemeral_request_counts [5, 6, 7, 8, 9] [2, 3]
      (by decide) (by decide) (by decide)).2.1

end HttpRange
